import Mathlib

/-!
# nginx-crun: the embedded Docker client and the content handler

A shallow embedding of `ngx_http_crun_module.c`.

* Bytes (`char`) are natural numbers; a memory object is a `List Nat`.
* `size_t` arithmetic is taken modulo `2 ^ 64`.
* A `NULL` pointer is `none`.
* An access outside an object, and a call that terminates the process, stop the
  run with a `Fault`; the events emitted up to that point are kept.
* The heap and libcurl are the environment: `Env` says which allocation sizes
  fail, what fresh memory holds and whether `curl_easy_init` yields a handle;
  the outcome of a transfer is an argument of each request.
* libcurl calls whose return value the source ignores (`curl_easy_setopt`,
  `curl_slist_append`, `curl_easy_getinfo`) behave as documented on success.
-/

namespace NginxCrun

/-- Modulus of `size_t` arithmetic. -/
def SIZE_MOD : Nat := 2 ^ 64

/-- Ways a run stops without returning. -/
inductive Fault
  /-- The call `exit(-1)` made by `malloc_fail`. -/
  | exit_malloc_fail
  /-- Undefined behaviour: an access outside an object or through `NULL`. -/
  | undefined
  deriving DecidableEq, Repr

/-- The `struct buffer` of the source: `data` is `NULL` or a heap block. -/
structure buffer where
  data : Option (List Nat)
  size : Nat
  deriving DecidableEq, Repr

/-- The options of a libcurl easy handle that the source sets. `writefunction`
is true when `write_function` is installed (false: the library default),
`writedata` is true when the sink is `client->buffer`; an absent
`httpheader` list is `[]`. -/
structure CURL where
  unix_socket_path : Option String
  writefunction : Bool
  writedata : Bool
  url : Option String
  httpheader : List String
  customrequest : Option String
  postfields : Option String
  deriving DecidableEq, Repr

/-- The `struct docker` of the source. -/
structure DOCKER where
  curl : CURL
  version : List Nat
  buffer : buffer
  deriving DecidableEq, Repr

/-- Observable events of a run, in program order. -/
inductive Event
  | stderr (s : String)
  | stdout (s : String)
  /-- The call `fprintf(stderr, "%s\n", p)`, with what `p` points to. -/
  | stderr_string (p : Option (List Nat))
  | malloc (n : Nat)
  | realloc (n : Nat)
  | curl_easy_init
  /-- The call `curl_easy_perform` with the options then in effect. -/
  | transfer (options : CURL)
  /-- The call `curl_easy_getinfo(.., CURLINFO_RESPONSE_CODE, ..)`. -/
  | getinfo_response_code
  | curl_easy_cleanup
  | free
  deriving DecidableEq, Repr

/-- The environment of a run. -/
structure Env where
  /-- The sizes for which `malloc` and `realloc` return `NULL`. -/
  heap_fails : Nat → Bool
  /-- The byte found at an index of freshly allocated memory. -/
  junk : Nat → Nat
  /-- Whether `curl_easy_init` returns `NULL`. -/
  curl_init_fails : Bool

deriving instance DecidableEq for Except

/-- A run: the events emitted, and the value returned or the fault. -/
structure Run (α : Type) where
  trace : List Event
  result : Except Fault α
  deriving DecidableEq

namespace Run

def ret {α : Type} (a : α) : Run α := ⟨[], .ok a⟩

def fail {α : Type} (f : Fault) : Run α := ⟨[], .error f⟩

def emit (e : Event) : Run Unit := ⟨[e], .ok ()⟩

def andThen {α β : Type} (x : Run α) (f : α → Run β) : Run β :=
  match x.result with
  | .error e => ⟨x.trace, .error e⟩
  | .ok a => ⟨x.trace ++ (f a).trace, (f a).result⟩

end Run

instance : Monad Run where
  pure := Run.ret
  bind := Run.andThen

/-- The function `strlen`: the number of bytes before the first 0 byte of the
object; `none` when the object has no terminator. -/
def strlen : List Nat → Option Nat
  | [] => none
  | c :: cs => if c = 0 then some 0 else (strlen cs).map (· + 1)

/-- A string literal as a memory object: its characters and the terminator. -/
def literal (s : String) : List Nat := s.toList.map Char.toNat ++ [0]

/-- The function `realloc(p, n)` when it succeeds: a block of `n` bytes that
keeps the old contents up to the smaller size; the rest is indeterminate.
`realloc(NULL, n)` is `malloc(n)`. -/
def realloc_block (env : Env) (p : Option (List Nat)) (n : Nat) : List Nat :=
  let old := (p.getD []).take n
  old ++ (List.range (n - old.length)).map env.junk

/-- The function `realloc`: `NULL` when the environment refuses the size. -/
def realloc (env : Env) (p : Option (List Nat)) (n : Nat) : Run (Option (List Nat)) := do
  Run.emit (Event.realloc n)
  if env.heap_fails n then pure none else pure (some (realloc_block env p n))

/-- The function `malloc_fail`: prints and calls `exit(-1)`. -/
def malloc_fail {α : Type} : Run α := do
  Run.emit (Event.stderr "ERROR: Failed to allocate memory. Committing seppuku.")
  Run.fail Fault.exit_malloc_fail

/-- The call `memcpy(&dst[off], src, n)`; `none` when it would leave an object. -/
def memcpy (dst : List Nat) (off : Nat) (src : List Nat) (n : Nat) : Option (List Nat) :=
  if n ≤ src.length ∧ off + n ≤ dst.length then
    some (dst.take off ++ src.take n ++ dst.drop (off + n))
  else none

/-- The store `dst[i] = v`; `none` when `i` is outside the object. -/
def store (dst : List Nat) (i : Nat) (v : Nat) : Option (List Nat) :=
  if i < dst.length then some (dst.set i v) else none

/-- The function `write_function`: returns `realsize` and the updated buffer. -/
def write_function (env : Env) (data : List Nat) (size nmemb : Nat) (mem : buffer) :
    Run (Nat × buffer) := do
  let realsize := (size * nmemb) % SIZE_MOD
  let p ← realloc env mem.data ((mem.size + realsize + 1) % SIZE_MOD)
  match p with
  | none => malloc_fail
  | some block =>
    match memcpy block mem.size data realsize with
    | none => Run.fail Fault.undefined
    | some block1 =>
      let size1 := (mem.size + realsize) % SIZE_MOD
      match store block1 size1 0 with
      | none => Run.fail Fault.undefined
      | some block2 => pure (realsize, { data := some block2, size := size1 })

/-- The outcome of one transfer, chosen by the environment: the body chunks
handed to the write callback, the result code of `curl_easy_perform` and the
last HTTP status received. -/
structure Transfer where
  chunks : List (List Nat)
  code : Nat
  status : Int

def CURLE_OK : Nat := 0

def CURLE_WRITE_ERROR : Nat := 23

def NGX_HTTP_OK : Nat := 200

/-- The size of `struct docker` (three pointers). -/
def sizeof_docker : Nat := 24

/-- The size of `struct buffer` (a pointer and a `size_t`). -/
def sizeof_buffer : Nat := 16

/-- A fresh easy handle: every option at its default. -/
def curl_easy_fresh : CURL :=
  { unix_socket_path := none, writefunction := false, writedata := false, url := none,
    httpheader := [], customrequest := none, postfields := none }

/-- The options the source passes to `curl_easy_setopt`. `WRITEFUNCTION` stands
for the value `write_function` and `WRITEDATA` for the value `client->buffer`. -/
inductive CURLoption
  | UNIX_SOCKET_PATH (path : String)
  | WRITEFUNCTION
  | WRITEDATA
  | URL (url : String)
  | HTTPHEADER (headers : List String)
  | CUSTOMREQUEST (method : String)
  | POSTFIELDS (data : String)

def curl_easy_setopt (h : CURL) : CURLoption → CURL
  | .UNIX_SOCKET_PATH p => { h with unix_socket_path := some p }
  | .WRITEFUNCTION => { h with writefunction := true }
  | .WRITEDATA => { h with writedata := true }
  | .URL u => { h with url := some u }
  | .HTTPHEADER l => { h with httpheader := l }
  | .CUSTOMREQUEST m => { h with customrequest := some m }
  | .POSTFIELDS d => { h with postfields := some d }

/-- The function `curl_easy_reset`: every option back to its default. -/
def curl_easy_reset (_h : CURL) : CURL := curl_easy_fresh

/-- The function `curl_slist_append`. -/
def curl_slist_append (l : List String) (s : String) : List String := l ++ [s]

/-- The function `malloc`: `NULL` when the environment refuses the size. -/
def malloc (env : Env) (n : Nat) : Run (Option (List Nat)) := do
  Run.emit (Event.malloc n)
  if env.heap_fails n then pure none else pure (some ((List.range n).map env.junk))

/-- The function `curl_easy_init`. -/
def curl_easy_init (env : Env) : Run (Option CURL) := do
  Run.emit Event.curl_easy_init
  if env.curl_init_fails then pure none else pure (some curl_easy_fresh)

def init_buffer (client : DOCKER) : DOCKER :=
  { client with buffer := { data := none, size := 0 } }

def init_curl (client : DOCKER) : DOCKER :=
  let h := curl_easy_setopt client.curl (.UNIX_SOCKET_PATH "/var/run/docker.sock")
  let h := curl_easy_setopt h .WRITEFUNCTION
  let h := curl_easy_setopt h .WRITEDATA
  { client with curl := h }

/-- The body phase of `curl_easy_perform`: each chunk goes to the write
callback as `(chunk, 1, length, sink)`; a callback that returns another count
aborts the transfer (the flag returned is then true). With both options at
their default the body goes to `stdout` and the buffer is not touched; the
callback of the source on any other sink is undefined. -/
def deliver (env : Env) (h : CURL) : List (List Nat) → buffer → Run (Bool × buffer)
  | [], mem => pure (false, mem)
  | chunk :: rest, mem =>
    match h.writefunction, h.writedata with
    | true, true => do
      let (written, mem1) ← write_function env chunk 1 chunk.length mem
      if written = chunk.length then deliver env h rest mem1 else pure (true, mem1)
    | false, false => deliver env h rest mem
    | _, _ => Run.fail Fault.undefined

/-- The function `curl_easy_perform` on the handle of `client`. -/
def curl_easy_perform (env : Env) (client : DOCKER) (t : Transfer) : Run (Nat × DOCKER) := do
  Run.emit (Event.transfer client.curl)
  let (aborted, mem) ← deliver env client.curl t.chunks client.buffer
  pure (if aborted then CURLE_WRITE_ERROR else t.code, { client with buffer := mem })

/-- The call `curl_easy_getinfo(curl, CURLINFO_RESPONSE_CODE, p)`. -/
def curl_easy_getinfo_response_code (t : Transfer) : Run Int := do
  Run.emit Event.getinfo_response_code
  pure t.status

/-- The function `perform`. The argument `http_status` is `none` for a `NULL`
pointer and `some v` for a pointer to a `long` holding `v`; the last component
of the result is the `long` after the call. -/
def perform (env : Env) (client : DOCKER) (url : String) (http_status : Option Int)
    (t : Transfer) : Run (Nat × DOCKER × Option Int) := do
  let client := init_buffer client
  let client := { client with curl := curl_easy_setopt client.curl (.URL url) }
  let (response, client) ← curl_easy_perform env client t
  let http_status ← (match http_status with
    | some _ => do
      let s ← curl_easy_getinfo_response_code t
      pure (some s)
    | none => pure none)
  let client := { client with curl := curl_easy_reset client.curl }
  pure (response, client, http_status)

/-- The function `docker_init`; `none` is the `NULL` result. -/
def docker_init (env : Env) (version : List Nat) : Run (Option DOCKER) :=
  match strlen version with
  | none => Run.fail Fault.undefined
  | some len => do
    let version_len := (len + 1) % SIZE_MOD
    if version_len < 5 then do
      Run.emit (Event.stderr "WARNING: version malformed.")
      pure none
    else do
      let c ← malloc env sizeof_docker
      let b ← malloc env sizeof_buffer
      match c, b with
      | some _, some _ =>
        let client : DOCKER :=
          { curl := curl_easy_fresh, version := [], buffer := { data := none, size := 0 } }
        let client := init_buffer client
        let v ← malloc env version_len
        match v with
        | none => malloc_fail
        | some block =>
          match memcpy block 0 version version_len with
          | none => Run.fail Fault.undefined
          | some block1 =>
            let client := { client with version := block1 }
            let h ← curl_easy_init env
            match h with
            | some handle =>
              let client := { client with curl := handle }
              let client := init_curl client
              pure (some client)
            | none => pure none
      | _, _ => Run.fail Fault.undefined

def docker_destroy (_client : DOCKER) : Run Int := do
  Run.emit Event.curl_easy_cleanup
  Run.emit Event.free
  Run.emit Event.free
  Run.emit Event.free
  Run.emit Event.free
  pure 0

def docker_buffer (client : DOCKER) : Option (List Nat) :=
  client.buffer.data

def docker_delete_with_http_status (env : Env) (client : DOCKER) (url : String)
    (out_http_status : Option Int) (t : Transfer) : Run (Nat × DOCKER × Option Int) := do
  let client := init_curl client
  let headers : List String := []
  let headers := curl_slist_append headers "Content-Type: application/json"
  let client := { client with curl := curl_easy_setopt client.curl (.HTTPHEADER headers) }
  let client := { client with curl := curl_easy_setopt client.curl (.CUSTOMREQUEST "DELETE") }
  let response ← perform env client url out_http_status t
  -- curl_slist_free_all(headers): the list is local, and the handle was reset in perform
  pure response

def docker_post_with_http_status (env : Env) (client : DOCKER) (url : String) (data : String)
    (out_http_status : Option Int) (t : Transfer) : Run (Nat × DOCKER × Option Int) := do
  let client := init_curl client
  let headers : List String := []
  let headers := curl_slist_append headers "Content-Type: application/json"
  let client := { client with curl := curl_easy_setopt client.curl (.HTTPHEADER headers) }
  let client := { client with curl := curl_easy_setopt client.curl (.POSTFIELDS data) }
  let response ← perform env client url out_http_status t
  -- curl_slist_free_all(headers): the list is local, and the handle was reset in perform
  pure response

def docker_get_with_http_status (env : Env) (client : DOCKER) (url : String)
    (out_http_status : Option Int) (t : Transfer) : Run (Nat × DOCKER × Option Int) :=
  let client := init_curl client
  perform env client url out_http_status t

def docker_delete (env : Env) (client : DOCKER) (url : String) (t : Transfer) :
    Run (Nat × DOCKER) := do
  let (response, client, _) ← docker_delete_with_http_status env client url none t
  pure (response, client)

def docker_post (env : Env) (client : DOCKER) (url : String) (data : String) (t : Transfer) :
    Run (Nat × DOCKER) := do
  let (response, client, _) ← docker_post_with_http_status env client url data none t
  pure (response, client)

def docker_get (env : Env) (client : DOCKER) (url : String) (t : Transfer) :
    Run (Nat × DOCKER) := do
  let (response, client, _) ← docker_get_with_http_status env client url none t
  pure (response, client)

def DFUNCTION : String := "hello crun\r\n"

/-- What the handler hands to nginx: the output headers it sets and the single
buffer of the output chain, given as the object `pos` points to and the
distance `last - pos`. -/
structure Response where
  content_type : String
  status : Nat
  content_length_n : Int
  pos : List Nat
  sz : Nat
  deriving DecidableEq, Repr

/-- The conversion of a `size_t` to the signed 64-bit `off_t`. -/
def off_t_of_size_t (n : Nat) : Int :=
  if n < 2 ^ 63 then (n : Int) else (n : Int) - 2 ^ 64

/-- The bytes of the range `[pos, last)` that the output filter sends; `none`
when the range leaves the object `pos` points to. -/
def Response.body (r : Response) : Option (List Nat) :=
  if r.sz ≤ r.pos.length then some (r.pos.take r.sz) else none

set_option linter.unusedVariables false in
/-- The function `ngx_http_crun_handler`. The request is given by its query
string `r->args` (`args.len` is the length of the list); `t` is the outcome
of the one transfer the handler may start. -/
def ngx_http_crun_handler (env : Env) (args : List Nat) (t : Transfer) : Run Response := do
  let (ngx_hello_crun, sz) ←
    (if args.length ≤ 0 then
      match strlen (literal DFUNCTION) with
      | some n => pure (literal DFUNCTION, n)
      | none => Run.fail Fault.undefined
    else pure (args, args.length) : Run (List Nat × Nat))
  let docker ← docker_init env (literal "v1.25")
  let ngx_hello_crun ← (match docker with
    | some docker => do
      Run.emit (Event.stdout "The following are the Docker images present in the system.\n")
      let (response, docker) ← docker_get env docker "http://v1.25/images/json" t
      if response = CURLE_OK then
        Run.emit (Event.stderr_string (docker_buffer docker))
      let _ ← docker_destroy docker
      pure (literal "The following are the Docker images present in the system.\n")
    | none => do
      Run.emit (Event.stderr "ERROR: Failed to get get a docker client!\n")
      pure (literal "ERROR: Failed to get get a docker client!\n") : Run (List Nat))
  pure { content_type := "text/html", status := NGX_HTTP_OK,
         content_length_n := off_t_of_size_t sz, pos := ngx_hello_crun, sz := sz }

/-! ## Observations and sequences of calls, used to state the properties -/

/-- The first `size` bytes of the buffer; empty when `data` is `NULL`. -/
def buffer.contents (b : buffer) : List Nat := (b.data.getD []).take b.size

/-- The byte `data[i]`; `none` when `data` is `NULL` or `i` is outside the block. -/
def buffer.byte (b : buffer) (i : Nat) : Option Nat := b.data.bind (fun d => d[i]?)

/-- A sequence of calls `write_function(data, size, nmemb, mem)` on one buffer. -/
def write_calls (env : Env) : List (List Nat × Nat × Nat) → buffer → Run buffer
  | [], mem => pure mem
  | (data, size, nmemb) :: rest, mem => do
    let (_, mem1) ← write_function env data size nmemb mem
    write_calls env rest mem1

/-- The total number of bytes of a list of chunks. -/
def total (chunks : List (List Nat)) : Nat := (chunks.map List.length).sum

/-- Shape of a buffer between calls: `NULL` with size 0, or a block of
exactly `size + 1` bytes. -/
def buffer.exact (b : buffer) : Prop :=
  (b.data = none ∧ b.size = 0) ∨ ∃ d, b.data = some d ∧ d.length = b.size + 1

/-- Events of the heap and of `stderr`: neither a transfer nor a status query. -/
def Event.quiet : Event → Bool
  | .transfer _ => false
  | .getinfo_response_code => false
  | _ => true

/-- A run that starts no transfer and makes no status query. -/
def Run.quiet {α : Type} (x : Run α) : Prop := ∀ e ∈ x.trace, e.quiet = true

/-- The state of the buffer that every operation leaves: `NULL` with size 0,
or a block with a 0 byte at index `size`. -/
def buffer.null_or_terminated (b : buffer) : Prop :=
  (b.data = none ∧ b.size = 0) ∨ b.byte b.size = some 0

/-- One call of the public interface on a client. -/
inductive Op
  | get (url : String) (t : Transfer)
  | get_with_http_status (url : String) (out_http_status : Option Int) (t : Transfer)
  | post (url data : String) (t : Transfer)
  | post_with_http_status (url data : String) (out_http_status : Option Int) (t : Transfer)
  | delete (url : String) (t : Transfer)
  | delete_with_http_status (url : String) (out_http_status : Option Int) (t : Transfer)
  | buffer

/-- The client after one call. -/
def Op.run (env : Env) (c : DOCKER) : Op → Run DOCKER
  | .get url t => do
    let (_, c1) ← docker_get env c url t
    pure c1
  | .get_with_http_status url st t => do
    let (_, c1, _) ← docker_get_with_http_status env c url st t
    pure c1
  | .post url data t => do
    let (_, c1) ← docker_post env c url data t
    pure c1
  | .post_with_http_status url data st t => do
    let (_, c1, _) ← docker_post_with_http_status env c url data st t
    pure c1
  | .delete url t => do
    let (_, c1) ← docker_delete env c url t
    pure c1
  | .delete_with_http_status url st t => do
    let (_, c1, _) ← docker_delete_with_http_status env c url st t
    pure c1
  | .buffer =>
    let _p := docker_buffer c
    pure c

/-- The client after a sequence of calls. -/
def run_ops (env : Env) (c : DOCKER) : List Op → Run DOCKER
  | [] => pure c
  | op :: rest => do
    let c1 ← op.run env c
    run_ops env c1 rest

/-- The options of a GET as the interface describes them. -/
def get_options (url : String) : CURL :=
  { unix_socket_path := some "/var/run/docker.sock", writefunction := true, writedata := true,
    url := some url, httpheader := [], customrequest := none, postfields := none }

/-- The options of a POST as the interface describes them. -/
def post_options (url data : String) : CURL :=
  { unix_socket_path := some "/var/run/docker.sock", writefunction := true, writedata := true,
    url := some url, httpheader := ["Content-Type: application/json"], customrequest := none,
    postfields := some data }

/-- The options of a DELETE as the interface describes them. -/
def delete_options (url : String) : CURL :=
  { unix_socket_path := some "/var/run/docker.sock", writefunction := true, writedata := true,
    url := some url, httpheader := ["Content-Type: application/json"],
    customrequest := some "DELETE", postfields := none }

/-- The options of the handle that `docker_init` returns. -/
def init_options : CURL :=
  { unix_socket_path := some "/var/run/docker.sock", writefunction := true, writedata := true,
    url := none, httpheader := [], customrequest := none, postfields := none }

/-- A handle that carries no header list, no custom method and no body. -/
def CURL.clean (h : CURL) : Prop :=
  h.httpheader = [] ∧ h.customrequest = none ∧ h.postfields = none

/-- An environment in which every allocation and `curl_easy_init` succeed. -/
def sample_env : Env :=
  { heap_fails := fun _ => false, junk := fun _ => 170, curl_init_fails := false }

/-- The client that `docker_init` returns for the version `v1.25`. -/
def new_client : DOCKER :=
  { curl := init_options, version := literal "v1.25",
    buffer := { data := none, size := 0 } }

/-- A client between two requests, with the given buffer. -/
def idle_client (mem : buffer) : DOCKER :=
  { curl := curl_easy_fresh, version := literal "v1.25", buffer := mem }

/-- An environment in which `curl_easy_init` returns `NULL`. -/
def no_curl_env : Env :=
  { heap_fails := fun _ => false, junk := fun _ => 170, curl_init_fails := true }

/-! ## Lemmas -/

@[simp] theorem Run.pure_eq {α : Type} (a : α) : (pure a : Run α) = ⟨[], .ok a⟩ := rfl

@[simp] theorem Run.bind_eq {α β : Type} (x : Run α) (f : α → Run β) :
    x >>= f = Run.andThen x f := rfl

theorem realloc_block_length (env : Env) (p : Option (List Nat)) (n : Nat) :
    (realloc_block env p n).length = n := by
  simp only [realloc_block, List.length_append, List.length_map, List.length_range,
    List.length_take]
  omega

theorem realloc_block_take (env : Env) (p : Option (List Nat)) (n k : Nat)
    (hk : k ≤ (p.getD []).length) (hn : k ≤ n) :
    (realloc_block env p n).take k = (p.getD []).take k := by
  simp only [realloc_block]
  rw [List.take_append_of_le_length (by simp [List.length_take]; omega)]
  rw [List.take_take]
  congr 1
  omega

theorem drop_eq_singleton (l : List Nat) (k : Nat) (h : l.length = k + 1) :
    ∃ x, l.drop k = [x] := by
  have hl : (l.drop k).length = 1 := by simp [h]
  match hd : l.drop k, hl with
  | [x], _ => exact ⟨x, rfl⟩

theorem set_append_last (l : List Nat) (x v : Nat) (k : Nat) (hk : k = l.length) :
    (l ++ [x]).set k v = l ++ [v] := by
  subst hk
  induction l with
  | nil => rfl
  | cons a t ih => simp [ih]

/-- The copy and the terminator store of `write_function` on a block of the
size it asked for. -/
theorem memcpy_store (block data : List Nat) (s : Nat)
    (hb : block.length = s + data.length + 1) :
    (memcpy block s data data.length).bind (fun b => store b (s + data.length) 0) =
      some (block.take s ++ data ++ [0]) := by
  obtain ⟨x, hx⟩ := drop_eq_singleton block (s + data.length) hb
  have hc : memcpy block s data data.length =
      some (block.take s ++ data ++ [x]) := by
    simp [memcpy, hb, hx]
  have hlen : (block.take s ++ data ++ [x]).length = s + data.length + 1 := by
    simp [List.length_take, hb]; omega
  rw [hc]
  simp only [Option.some_bind, store, hlen]
  rw [if_pos (by omega)]
  congr 1
  apply set_append_last
  simp [List.length_take, hb]; omega

/-- One call of `write_function` on a buffer of the exact shape, when the
allocation succeeds and no `size_t` computation wraps. -/
theorem write_function_spec (env : Env) (data : List Nat) (size nmemb : Nat) (mem : buffer)
    (hheap : env.heap_fails (mem.size + data.length + 1) = false)
    (hlen : size * nmemb = data.length)
    (hfit : mem.size + data.length + 1 < SIZE_MOD)
    (hmem : mem.exact) :
    write_function env data size nmemb mem =
      ⟨[Event.realloc (mem.size + data.length + 1)],
        .ok (data.length,
          { data := some (mem.contents ++ data ++ [0]), size := mem.size + data.length })⟩ := by
  have h1 : (size * nmemb) % SIZE_MOD = data.length := by
    rw [hlen]; exact Nat.mod_eq_of_lt (by omega)
  have h2 : (mem.size + data.length + 1) % SIZE_MOD = mem.size + data.length + 1 :=
    Nat.mod_eq_of_lt hfit
  have h3 : (mem.size + data.length) % SIZE_MOD = mem.size + data.length :=
    Nat.mod_eq_of_lt (by omega)
  have hsz : mem.size ≤ (mem.data.getD []).length := by
    rcases hmem with ⟨hd, hs⟩ | ⟨d, hd, hl⟩
    · simp [hs]
    · simp [hd, hl]
  have hblk := realloc_block_length env mem.data (mem.size + data.length + 1)
  have htk := realloc_block_take env mem.data (mem.size + data.length + 1) mem.size hsz
    (by omega)
  have hms := memcpy_store (realloc_block env mem.data (mem.size + data.length + 1)) data
    mem.size hblk
  rw [htk] at hms
  cases hc : memcpy (realloc_block env mem.data (mem.size + data.length + 1)) mem.size data
      data.length with
  | none => rw [hc] at hms; simp at hms
  | some b1 =>
    rw [hc] at hms
    simp only [Option.some_bind] at hms
    simp only [write_function, realloc, h1, h2, h3, hheap, Run.bind_eq, Run.pure_eq,
      Run.andThen, Run.emit]
    simp only [Bool.false_eq_true, if_false, List.nil_append, List.append_nil]
    rw [hc]
    simp only []
    rw [hms]
    simp [buffer.contents]

theorem contents_length (mem : buffer) (h : mem.exact) : mem.contents.length = mem.size := by
  rcases h with ⟨hd, hs⟩ | ⟨d, hd, hl⟩
  · simp [buffer.contents, hd, hs]
  · simp [buffer.contents, hd, hl]

theorem take_terminated (c data : List Nat) :
    (c ++ data ++ [0]).take (c.length + data.length) = c ++ data := by
  have : (c ++ data).length = c.length + data.length := by simp
  rw [← this, List.take_append_of_le_length (le_refl _), List.take_length]

theorem getElem_terminated (c data : List Nat) :
    (c ++ data ++ [0])[c.length + data.length]? = some 0 := by
  rw [List.getElem?_append_right (by simp)]
  simp

/-- The buffer left by one successful call of `write_function`. -/
theorem appended_facts (mem : buffer) (data : List Nat) (h : mem.exact) :
    let mem1 : buffer :=
      { data := some (mem.contents ++ data ++ [0]), size := mem.size + data.length }
    mem1.exact ∧ mem1.contents = mem.contents ++ data ∧ mem1.byte mem1.size = some 0 := by
  have hl := contents_length mem h
  generalize mem.contents = c at hl
  rw [← hl]
  refine ⟨Or.inr ⟨_, rfl, by simp; omega⟩, ?_, ?_⟩
  · simp only [buffer.contents, Option.getD_some]
    exact take_terminated c data
  · simp only [buffer.byte, Option.some_bind]
    exact getElem_terminated c data

theorem write_calls_spec (env : Env) (calls : List (List Nat × Nat × Nat))
    (hheap : ∀ n, env.heap_fails n = false)
    (hlen : ∀ c ∈ calls, c.2.1 * c.2.2 = c.1.length) :
    ∀ mem : buffer, mem.exact → mem.size + total (calls.map (·.1)) + 1 < SIZE_MOD →
    ∃ mem1, (write_calls env calls mem).result = .ok mem1 ∧ mem1.exact ∧
      mem1.size = mem.size + total (calls.map (·.1)) ∧
      mem1.contents = mem.contents ++ (calls.map (·.1)).flatten ∧
      (calls ≠ [] ∨ mem.byte mem.size = some 0 → mem1.byte mem1.size = some 0) := by
  induction calls with
  | nil =>
    intro mem hmem _
    exact ⟨mem, rfl, hmem, by simp [total], by simp, by simp⟩
  | cons c rest ih =>
    intro mem hmem hfit
    obtain ⟨data, size, nmemb⟩ := c
    have hc : size * nmemb = data.length := hlen (data, size, nmemb) (List.mem_cons_self _ _)
    have htot : total (((data, size, nmemb) :: rest).map (·.1)) =
        data.length + total (rest.map (·.1)) := by simp [total]
    rw [htot] at hfit
    have hw := write_function_spec env data size nmemb mem (hheap _) hc (by omega) hmem
    obtain ⟨hex, hcont, hterm⟩ := appended_facts mem data hmem
    obtain ⟨mem1, hres, hex1, hsize1, hcont1, hterm1⟩ :=
      ih (fun c hcm => hlen c (List.mem_cons_of_mem _ hcm)) _ hex (by simp only []; omega)
    refine ⟨mem1, ?_, hex1, ?_, ?_, fun _ => hterm1 (Or.inr hterm)⟩
    · simp only [write_calls, Run.bind_eq, hw, Run.andThen]
      exact hres
    · rw [hsize1, htot]; simp only []; omega
    · rw [hcont1, hcont]; simp

theorem deliver_spec (env : Env) (h : CURL) (hwf : h.writefunction = true)
    (hwd : h.writedata = true) (chunks : List (List Nat))
    (hheap : ∀ n, env.heap_fails n = false) :
    ∀ mem : buffer, mem.exact → mem.size + total chunks + 1 < SIZE_MOD →
    ∃ mem1, (deliver env h chunks mem).result = .ok (false, mem1) ∧ mem1.exact ∧
      mem1.size = mem.size + total chunks ∧
      mem1.contents = mem.contents ++ chunks.flatten ∧
      (chunks ≠ [] ∨ mem.byte mem.size = some 0 → mem1.byte mem1.size = some 0) := by
  induction chunks with
  | nil =>
    intro mem hmem _
    exact ⟨mem, rfl, hmem, by simp [total], by simp, by simp⟩
  | cons chunk rest ih =>
    intro mem hmem hfit
    have htot : total (chunk :: rest) = chunk.length + total rest := by simp [total]
    rw [htot] at hfit
    have hw := write_function_spec env chunk 1 chunk.length mem (hheap _) (by simp)
      (by omega) hmem
    obtain ⟨hex, hcont, hterm⟩ := appended_facts mem chunk hmem
    obtain ⟨mem1, hres, hex1, hsize1, hcont1, hterm1⟩ := ih _ hex (by simp only []; omega)
    refine ⟨mem1, ?_, hex1, ?_, ?_, fun _ => hterm1 (Or.inr hterm)⟩
    · simp only [deliver, hwf, hwd, Run.bind_eq, hw, Run.andThen, if_true]
      exact hres
    · rw [hsize1, htot]; simp only []; omega
    · rw [hcont1, hcont]; simp

theorem Run.quiet_nil {α : Type} (r : Except Fault α) : Run.quiet ⟨[], r⟩ := by
  intro e he; simp at he

theorem Run.quiet_andThen {α β : Type} (x : Run α) (f : α → Run β) (hx : x.quiet)
    (hf : ∀ a, (f a).quiet) : (Run.andThen x f).quiet := by
  intro e he
  unfold Run.andThen at he
  split at he
  · exact hx e he
  · rcases List.mem_append.mp he with h | h
    · exact hx e h
    · exact hf _ e h

theorem write_function_quiet (env : Env) (data : List Nat) (size nmemb : Nat) (mem : buffer) :
    (write_function env data size nmemb mem).quiet := by
  unfold write_function
  simp only [Run.bind_eq]
  apply Run.quiet_andThen
  · unfold realloc
    simp only [Run.bind_eq]
    apply Run.quiet_andThen
    · intro e he
      simp only [Run.emit, List.mem_singleton] at he
      subst he; rfl
    · intro _
      split <;> exact Run.quiet_nil _
  · intro p
    cases p with
    | none =>
      intro e he
      simp only [malloc_fail, Run.bind_eq, Run.andThen, Run.emit, Run.fail,
        List.append_nil, List.mem_singleton] at he
      subst he; rfl
    | some block =>
      simp only []
      split
      · exact Run.quiet_nil _
      · split <;> exact Run.quiet_nil _

theorem deliver_quiet (env : Env) (h : CURL) (chunks : List (List Nat)) :
    ∀ mem : buffer, (deliver env h chunks mem).quiet := by
  induction chunks with
  | nil => intro mem; exact Run.quiet_nil _
  | cons chunk rest ih =>
    intro mem
    unfold deliver
    split
    · simp only [Run.bind_eq]
      apply Run.quiet_andThen _ _ (write_function_quiet _ _ _ _ _)
      intro a
      split
      · exact ih _
      · exact Run.quiet_nil _
    · exact ih _
    · exact Run.quiet_nil _

theorem Run.andThen_result_ok {α β : Type} (x : Run α) (f : α → Run β) (b : β)
    (h : (Run.andThen x f).result = .ok b) :
    ∃ a, x.result = .ok a ∧ (f a).result = .ok b := by
  unfold Run.andThen at h
  split at h
  · simp at h
  · next a ha => exact ⟨a, ha, h⟩

theorem write_function_terminates (env : Env) (data : List Nat) (size nmemb : Nat)
    (mem mem1 : buffer) (n : Nat)
    (h : (write_function env data size nmemb mem).result = .ok (n, mem1)) :
    mem1.byte mem1.size = some 0 := by
  unfold write_function at h
  simp only [Run.bind_eq] at h
  obtain ⟨p, _, h⟩ := Run.andThen_result_ok _ _ _ h
  cases p with
  | none => simp [malloc_fail, Run.andThen, Run.emit, Run.fail] at h
  | some block =>
    simp only [] at h
    split at h
    · simp [Run.fail] at h
    · split at h
      · simp [Run.fail] at h
      · next block1 _ block2 hs =>
        simp only [Run.pure_eq, Except.ok.injEq, Prod.mk.injEq] at h
        obtain ⟨_, rfl⟩ := h
        unfold store at hs
        split at hs
        · next hlt =>
          simp only [Option.some.injEq] at hs
          subst hs
          simp only [buffer.byte, Option.some_bind]
          exact List.getElem?_set_self hlt
        · simp at hs

theorem deliver_null_or_terminated (env : Env) (h : CURL) (chunks : List (List Nat)) :
    ∀ (mem mem1 : buffer) (aborted : Bool),
      (deliver env h chunks mem).result = .ok (aborted, mem1) →
      mem.null_or_terminated → mem1.null_or_terminated := by
  induction chunks with
  | nil =>
    intro mem mem1 aborted hr hm
    simp only [deliver, Run.pure_eq, Except.ok.injEq, Prod.mk.injEq] at hr
    rw [← hr.2]; exact hm
  | cons chunk rest ih =>
    intro mem mem1 aborted hr hm
    unfold deliver at hr
    split at hr
    · simp only [Run.bind_eq] at hr
      obtain ⟨⟨n, mem2⟩, hw, hr⟩ := Run.andThen_result_ok _ _ _ hr
      have ht := write_function_terminates _ _ _ _ _ _ _ hw
      simp only [] at hr
      split at hr
      · exact ih _ _ _ hr (Or.inr ht)
      · simp only [Run.pure_eq, Except.ok.injEq, Prod.mk.injEq] at hr
        rw [← hr.2]; exact Or.inr ht
    · exact ih _ _ _ hr hm
    · simp [Run.fail] at hr

theorem quiet_not_transfer {l : List Event} (h : ∀ e ∈ l, e.quiet = true) (o : CURL) :
    Event.transfer o ∉ l := by
  intro hm
  have := h _ hm
  simp [Event.quiet] at this

theorem quiet_not_getinfo {l : List Event} (h : ∀ e ∈ l, e.quiet = true) :
    Event.getinfo_response_code ∉ l := by
  intro hm
  have := h _ hm
  simp [Event.quiet] at this

/-- The events of `perform`: one transfer, under the options of the handle with
the URL set, then events of the heap, then the status query when asked for. -/
theorem perform_trace (env : Env) (c : DOCKER) (url : String) (st : Option Int)
    (t : Transfer) :
    ∃ rest, (perform env c url st t).trace =
        Event.transfer (curl_easy_setopt c.curl (.URL url)) :: rest ∧
      (∀ o, Event.transfer o ∉ rest) ∧
      (st = none → Event.getinfo_response_code ∉ rest) := by
  have hq := deliver_quiet env (curl_easy_setopt c.curl (.URL url)) t.chunks
    { data := none, size := 0 }
  unfold Run.quiet at hq
  cases hd : (deliver env (curl_easy_setopt c.curl (.URL url)) t.chunks
      { data := none, size := 0 }).result with
  | error f =>
    refine ⟨(deliver env (curl_easy_setopt c.curl (.URL url)) t.chunks
      { data := none, size := 0 }).trace, ?_, quiet_not_transfer hq, fun _ => quiet_not_getinfo hq⟩
    simp [perform, curl_easy_perform, init_buffer, Run.andThen, Run.emit, hd]
  | ok r =>
    cases st with
    | none =>
      refine ⟨(deliver env (curl_easy_setopt c.curl (.URL url)) t.chunks
        { data := none, size := 0 }).trace, ?_, quiet_not_transfer hq,
        fun _ => quiet_not_getinfo hq⟩
      simp [perform, curl_easy_perform, init_buffer, Run.andThen, Run.emit, hd]
    | some v =>
      refine ⟨(deliver env (curl_easy_setopt c.curl (.URL url)) t.chunks
        { data := none, size := 0 }).trace ++ [Event.getinfo_response_code], ?_, ?_, by simp⟩
      · simp [perform, curl_easy_perform, curl_easy_getinfo_response_code, init_buffer,
          Run.andThen, Run.emit, hd]
      · intro o ho
        rcases List.mem_append.mp ho with h1 | h1
        · exact quiet_not_transfer hq o h1
        · simp at h1

/-- What a call of `perform` that returns leaves behind. -/
theorem perform_returns (env : Env) (c c1 : DOCKER) (url : String) (st st1 : Option Int)
    (t : Transfer) (code : Nat)
    (h : (perform env c url st t).result = .ok (code, c1, st1)) :
    c1.version = c.version ∧ c1.curl = curl_easy_fresh ∧ c1.buffer.null_or_terminated := by
  unfold perform curl_easy_perform at h
  simp only [Run.bind_eq] at h
  obtain ⟨⟨code1, c2⟩, h1, h⟩ := Run.andThen_result_ok _ _ _ h
  obtain ⟨_, _, h1⟩ := Run.andThen_result_ok _ _ _ h1
  obtain ⟨⟨ab, mem⟩, hd, h1⟩ := Run.andThen_result_ok _ _ _ h1
  have hinv := deliver_null_or_terminated _ _ _ _ _ _ hd (Or.inl ⟨rfl, rfl⟩)
  simp only [Run.pure_eq, Except.ok.injEq, Prod.mk.injEq] at h1
  obtain ⟨_, rfl⟩ := h1
  obtain ⟨s, _, h⟩ := Run.andThen_result_ok _ _ _ h
  simp only [Run.pure_eq, Except.ok.injEq, Prod.mk.injEq] at h
  obtain ⟨_, rfl, _⟩ := h
  exact ⟨rfl, rfl, hinv⟩

/-- A call of `perform` on a handle whose sink is the buffer of the client returns when
the heap does not fail and the body fits in `size_t`. -/
theorem perform_spec (env : Env) (c : DOCKER) (url : String) (st : Option Int)
    (t : Transfer) (hwf : c.curl.writefunction = true) (hwd : c.curl.writedata = true)
    (hheap : ∀ n, env.heap_fails n = false) (hfit : total t.chunks + 1 < SIZE_MOD) :
    ∃ mem, (perform env c url st t).result =
        .ok (t.code, { curl := curl_easy_fresh, version := c.version, buffer := mem },
          st.map (fun _ => t.status)) ∧
      mem.size = total t.chunks ∧ mem.contents = t.chunks.flatten ∧
      (t.chunks ≠ [] → mem.byte mem.size = some 0) ∧
      (t.chunks = [] → mem = { data := none, size := 0 }) := by
  obtain ⟨mem, hd, _, hsize, hcont, hterm⟩ :=
    deliver_spec env (curl_easy_setopt c.curl (.URL url)) hwf hwd t.chunks hheap
      { data := none, size := 0 } (Or.inl ⟨rfl, rfl⟩) (by simpa using hfit)
  refine ⟨mem, ?_, by simpa using hsize, by simpa [buffer.contents] using hcont,
    fun hne => hterm (Or.inl hne), ?_⟩
  · cases st <;>
      simp [perform, curl_easy_perform, curl_easy_getinfo_response_code, init_buffer,
        Run.andThen, Run.emit, hd, curl_easy_reset]
  · intro hnil
    rw [hnil] at hd
    simp only [deliver, Run.pure_eq, Except.ok.injEq, Prod.mk.injEq] at hd
    exact hd.2.symm

theorem perform_code (env : Env) (c : DOCKER) (url : String) (st : Option Int)
    (t : Transfer) (hwf : c.curl.writefunction = true) (hwd : c.curl.writedata = true)
    (hheap : ∀ n, env.heap_fails n = false) (hfit : total t.chunks + 1 < SIZE_MOD) :
    ∃ c1, (perform env c url st t).result = .ok (t.code, c1, st.map (fun _ => t.status)) := by
  obtain ⟨mem, h, _⟩ := perform_spec env c url st t hwf hwd hheap hfit
  exact ⟨_, h⟩

theorem Run.andThen_pure {α : Type} (x : Run α) :
    Run.andThen x (fun a => (⟨[], .ok a⟩ : Run α)) = x := by
  obtain ⟨tr, r⟩ := x
  cases r <;> simp [Run.andThen]

theorem docker_post_with_http_status_eq (env : Env) (c : DOCKER) (url data : String)
    (st : Option Int) (t : Transfer) :
    docker_post_with_http_status env c url data st t =
      perform env { c with curl :=
        { unix_socket_path := some "/var/run/docker.sock", writefunction := true,
          writedata := true, url := c.curl.url,
          httpheader := ["Content-Type: application/json"],
          customrequest := c.curl.customrequest, postfields := some data } } url st t := by
  simp only [docker_post_with_http_status, Run.bind_eq, Run.pure_eq, Run.andThen_pure]
  rfl

theorem docker_delete_with_http_status_eq (env : Env) (c : DOCKER) (url : String)
    (st : Option Int) (t : Transfer) :
    docker_delete_with_http_status env c url st t =
      perform env { c with curl :=
        { unix_socket_path := some "/var/run/docker.sock", writefunction := true,
          writedata := true, url := c.curl.url,
          httpheader := ["Content-Type: application/json"],
          customrequest := some "DELETE", postfields := c.curl.postfields } } url st t := by
  simp only [docker_delete_with_http_status, Run.bind_eq, Run.pure_eq, Run.andThen_pure]
  rfl

theorem docker_get_with_http_status_eq (env : Env) (c : DOCKER) (url : String)
    (st : Option Int) (t : Transfer) :
    docker_get_with_http_status env c url st t =
      perform env { c with curl :=
        { unix_socket_path := some "/var/run/docker.sock", writefunction := true,
          writedata := true, url := c.curl.url,
          httpheader := c.curl.httpheader,
          customrequest := c.curl.customrequest, postfields := c.curl.postfields } } url st t :=
  rfl

/-- A run followed by a projection of its value has the same events. -/
theorem Run.andThen_map_trace {α β : Type} (x : Run α) (f : α → Run β) (g : α → β)
    (hf : ∀ a, f a = ⟨[], .ok (g a)⟩) : (Run.andThen x f).trace = x.trace := by
  obtain ⟨tr, r⟩ := x
  cases r <;> simp [Run.andThen, hf]

theorem Run.andThen_map_result {α β : Type} (x : Run α) (f : α → Run β) (g : α → β)
    (hf : ∀ a, f a = ⟨[], .ok (g a)⟩) : (Run.andThen x f).result = x.result.map g := by
  obtain ⟨tr, r⟩ := x
  cases r <;> simp [Run.andThen, Except.map, hf]

/-- The plain verbs are their status variants called with `NULL`. -/
theorem plain_verbs (env : Env) (c : DOCKER) (url data : String) (t : Transfer) :
    ((docker_get env c url t).trace = (docker_get_with_http_status env c url none t).trace ∧
      (docker_get env c url t).result =
        (docker_get_with_http_status env c url none t).result.map (fun r => (r.1, r.2.1))) ∧
    ((docker_post env c url data t).trace =
        (docker_post_with_http_status env c url data none t).trace ∧
      (docker_post env c url data t).result =
        (docker_post_with_http_status env c url data none t).result.map
          (fun r => (r.1, r.2.1))) ∧
    ((docker_delete env c url t).trace =
        (docker_delete_with_http_status env c url none t).trace ∧
      (docker_delete env c url t).result =
        (docker_delete_with_http_status env c url none t).result.map
          (fun r => (r.1, r.2.1))) := by
  refine ⟨⟨?_, ?_⟩, ⟨?_, ?_⟩, ⟨?_, ?_⟩⟩
  · exact Run.andThen_map_trace _ _ (fun r : Nat × DOCKER × Option Int => (r.1, r.2.1))
      (fun _ => rfl)
  · exact Run.andThen_map_result _ _ (fun r : Nat × DOCKER × Option Int => (r.1, r.2.1))
      (fun _ => rfl)
  · exact Run.andThen_map_trace _ _ (fun r : Nat × DOCKER × Option Int => (r.1, r.2.1))
      (fun _ => rfl)
  · exact Run.andThen_map_result _ _ (fun r : Nat × DOCKER × Option Int => (r.1, r.2.1))
      (fun _ => rfl)
  · exact Run.andThen_map_trace _ _ (fun r : Nat × DOCKER × Option Int => (r.1, r.2.1))
      (fun _ => rfl)
  · exact Run.andThen_map_result _ _ (fun r : Nat × DOCKER × Option Int => (r.1, r.2.1))
      (fun _ => rfl)

theorem memcpy_fresh (env : Env) (v : List Nat) (n : Nat) (b : List Nat)
    (h : memcpy ((List.range n).map env.junk) 0 v n = some b) : b = v.take n := by
  unfold memcpy at h
  split at h
  · simp only [Option.some.injEq] at h
    rw [← h]
    simp
  · simp at h

theorem strlen_lt_length (v : List Nat) : ∀ n, strlen v = some n → n < v.length := by
  induction v with
  | nil => intro n h; simp [strlen] at h
  | cons a t ih =>
    intro n h
    unfold strlen at h
    split at h
    · simp only [Option.some.injEq] at h
      subst h; simp
    · simp only [Option.map_eq_some'] at h
      obtain ⟨m, hm, rfl⟩ := h
      have := ih m hm
      simp; omega

/-- A rejected version: one warning on `stderr`, the result `NULL`, nothing else. -/
theorem docker_init_rejects (env : Env) (v : List Nat) (n : Nat) (hn : strlen v = some n)
    (h4 : n < 4) :
    docker_init env v = ⟨[Event.stderr "WARNING: version malformed."], .ok none⟩ := by
  have hm : (n + 1) % SIZE_MOD = n + 1 := Nat.mod_eq_of_lt (by unfold SIZE_MOD; omega)
  simp only [docker_init, hn, hm, Run.bind_eq, Run.pure_eq, Run.andThen, Run.emit]
  rw [if_pos (by omega)]
  rfl

/-- A version that passes the check: the first event is the allocation of the client. -/
theorem docker_init_passes (env : Env) (v : List Nat) (n : Nat) (hn : strlen v = some n)
    (h5 : ¬ (n + 1) % SIZE_MOD < 5) :
    ∃ rest, (docker_init env v).trace = Event.malloc sizeof_docker :: rest := by
  simp only [docker_init, hn, Run.bind_eq, Run.pure_eq, Run.andThen, Run.emit, malloc]
  rw [if_neg h5]
  cases env.heap_fails sizeof_docker <;> simp

/-- With a heap and a library that do not fail, `docker_init` returns a client for
every version of at least 4 characters. -/
theorem docker_init_ok (env : Env) (v : List Nat) (n : Nat) (hn : strlen v = some n)
    (h4 : 4 ≤ n) (hfit : n + 1 < SIZE_MOD) (hheap : ∀ k, env.heap_fails k = false)
    (hcurl : env.curl_init_fails = false) :
    (docker_init env v).result =
      .ok (some { curl := init_options, version := v.take (n + 1),
                  buffer := { data := none, size := 0 } }) := by
  have hm : (n + 1) % SIZE_MOD = n + 1 := Nat.mod_eq_of_lt hfit
  have hlt := strlen_lt_length v n hn
  have hcp : memcpy ((List.range (n + 1)).map env.junk) 0 v (n + 1) = some (v.take (n + 1)) := by
    unfold memcpy
    rw [if_pos ⟨by omega, by simp⟩]
    simp
  simp only [docker_init, hn, hm, Run.bind_eq]
  rw [if_neg (by omega)]
  simp only [malloc, curl_easy_init, hheap, hcurl, Run.bind_eq, Run.andThen, Run.emit,
    Run.pure_eq, Bool.false_eq_true, if_false, hcp]
  rfl

/-- The client of a successful `docker_init`. -/
theorem docker_init_success (env : Env) (v : List Nat) (n : Nat) (c : DOCKER)
    (hn : strlen v = some n) (h : (docker_init env v).result = .ok (some c)) :
    c = { curl := init_options, version := v.take ((n + 1) % SIZE_MOD),
          buffer := { data := none, size := 0 } } := by
  simp only [docker_init, hn, Run.bind_eq] at h
  split at h
  · simp [Run.andThen, Run.emit] at h
  · obtain ⟨c0, _, h⟩ := Run.andThen_result_ok _ _ _ h
    obtain ⟨b0, _, h⟩ := Run.andThen_result_ok _ _ _ h
    cases c0 with
    | none => simp [Run.fail] at h
    | some _ =>
      cases b0 with
      | none => simp [Run.fail] at h
      | some _ =>
        simp only [] at h
        obtain ⟨v0, hv, h⟩ := Run.andThen_result_ok _ _ _ h
        cases v0 with
        | none => simp [malloc_fail, Run.andThen, Run.emit, Run.fail] at h
        | some block =>
          have hb : block = (List.range ((n + 1) % SIZE_MOD)).map env.junk := by
            simp only [malloc, Run.bind_eq, Run.andThen, Run.emit] at hv
            split at hv <;> simp at hv
            exact hv.symm
          subst hb
          simp only [] at h
          split at h
          · simp [Run.fail] at h
          · next block1 hcp =>
            have hb1 := memcpy_fresh env v _ _ hcp
            subst hb1
            obtain ⟨h0, hi, h⟩ := Run.andThen_result_ok _ _ _ h
            cases h0 with
            | none => simp at h
            | some handle =>
              have hh : handle = curl_easy_fresh := by
                simp only [curl_easy_init, Run.bind_eq, Run.andThen, Run.emit] at hi
                split at hi <;> simp at hi
                exact hi.symm
              subst hh
              simp only [Run.pure_eq, Except.ok.injEq, Option.some.injEq] at h
              rw [← h]
              rfl

theorem with_http_status_returns (env : Env) (c c1 : DOCKER) (url data : String)
    (st st1 : Option Int) (t : Transfer) (code : Nat) :
    ((docker_get_with_http_status env c url st t).result = .ok (code, c1, st1) →
      c1.version = c.version ∧ c1.curl = curl_easy_fresh ∧ c1.buffer.null_or_terminated) ∧
    ((docker_post_with_http_status env c url data st t).result = .ok (code, c1, st1) →
      c1.version = c.version ∧ c1.curl = curl_easy_fresh ∧ c1.buffer.null_or_terminated) ∧
    ((docker_delete_with_http_status env c url st t).result = .ok (code, c1, st1) →
      c1.version = c.version ∧ c1.curl = curl_easy_fresh ∧ c1.buffer.null_or_terminated) := by
  refine ⟨fun h => ?_, fun h => ?_, fun h => ?_⟩
  · rw [docker_get_with_http_status_eq] at h
    have hp := perform_returns _ _ _ _ _ _ _ _ h
    exact hp
  · rw [docker_post_with_http_status_eq] at h
    have hp := perform_returns _ _ _ _ _ _ _ _ h
    exact hp
  · rw [docker_delete_with_http_status_eq] at h
    have hp := perform_returns _ _ _ _ _ _ _ _ h
    exact hp

/-- What a call of the interface that returns leaves behind. -/
theorem op_run_returns (env : Env) (c c1 : DOCKER) (op : Op)
    (h : (op.run env c).result = .ok c1) :
    c1.version = c.version ∧
      (c1 = c ∨ (c1.curl = curl_easy_fresh ∧ c1.buffer.null_or_terminated)) := by
  cases op with
  | get url t =>
    simp only [Op.run, docker_get, Run.bind_eq] at h
    obtain ⟨⟨code, c2⟩, h1, h⟩ := Run.andThen_result_ok _ _ _ h
    obtain ⟨⟨code1, c3, st3⟩, h1, h2⟩ := Run.andThen_result_ok _ _ _ h1
    simp only [Run.pure_eq, Except.ok.injEq, Prod.mk.injEq] at h h2
    obtain ⟨_, h2⟩ := h2
    rw [← h, ← h2]
    have := (with_http_status_returns env c c3 url "" none st3 t code1).1 h1
    exact ⟨this.1, Or.inr this.2⟩
  | get_with_http_status url st t =>
    simp only [Op.run, Run.bind_eq] at h
    obtain ⟨⟨code1, c3, st3⟩, h1, h⟩ := Run.andThen_result_ok _ _ _ h
    simp only [Run.pure_eq, Except.ok.injEq] at h
    subst h
    have := (with_http_status_returns env c c3 url "" st st3 t code1).1 h1
    exact ⟨this.1, Or.inr this.2⟩
  | post url data t =>
    simp only [Op.run, docker_post, Run.bind_eq] at h
    obtain ⟨⟨code, c2⟩, h1, h⟩ := Run.andThen_result_ok _ _ _ h
    obtain ⟨⟨code1, c3, st3⟩, h1, h2⟩ := Run.andThen_result_ok _ _ _ h1
    simp only [Run.pure_eq, Except.ok.injEq, Prod.mk.injEq] at h h2
    obtain ⟨_, h2⟩ := h2
    rw [← h, ← h2]
    have := (with_http_status_returns env c c3 url data none st3 t code1).2.1 h1
    exact ⟨this.1, Or.inr this.2⟩
  | post_with_http_status url data st t =>
    simp only [Op.run, Run.bind_eq] at h
    obtain ⟨⟨code1, c3, st3⟩, h1, h⟩ := Run.andThen_result_ok _ _ _ h
    simp only [Run.pure_eq, Except.ok.injEq] at h
    subst h
    have := (with_http_status_returns env c c3 url data st st3 t code1).2.1 h1
    exact ⟨this.1, Or.inr this.2⟩
  | delete url t =>
    simp only [Op.run, docker_delete, Run.bind_eq] at h
    obtain ⟨⟨code, c2⟩, h1, h⟩ := Run.andThen_result_ok _ _ _ h
    obtain ⟨⟨code1, c3, st3⟩, h1, h2⟩ := Run.andThen_result_ok _ _ _ h1
    simp only [Run.pure_eq, Except.ok.injEq, Prod.mk.injEq] at h h2
    obtain ⟨_, h2⟩ := h2
    rw [← h, ← h2]
    have := (with_http_status_returns env c c3 url "" none st3 t code1).2.2 h1
    exact ⟨this.1, Or.inr this.2⟩
  | delete_with_http_status url st t =>
    simp only [Op.run, Run.bind_eq] at h
    obtain ⟨⟨code1, c3, st3⟩, h1, h⟩ := Run.andThen_result_ok _ _ _ h
    simp only [Run.pure_eq, Except.ok.injEq] at h
    subst h
    have := (with_http_status_returns env c c3 url "" st st3 t code1).2.2 h1
    exact ⟨this.1, Or.inr this.2⟩
  | buffer =>
    simp only [Op.run, Run.pure_eq, Except.ok.injEq] at h
    subst h
    exact ⟨rfl, Or.inl rfl⟩

theorem curl_easy_fresh_clean : curl_easy_fresh.clean := ⟨rfl, rfl, rfl⟩

/-- A sequence of calls that returns keeps the version and leaves a clean handle. -/
theorem run_ops_returns (env : Env) (ops : List Op) :
    ∀ c c1 : DOCKER, (run_ops env c ops).result = .ok c1 → c.curl.clean →
      c1.version = c.version ∧ c1.curl.clean := by
  induction ops with
  | nil =>
    intro c c1 h hc
    simp only [run_ops, Run.pure_eq, Except.ok.injEq] at h
    subst h
    exact ⟨rfl, hc⟩
  | cons op rest ih =>
    intro c c1 h hc
    simp only [run_ops, Run.bind_eq] at h
    obtain ⟨c2, h1, h⟩ := Run.andThen_result_ok _ _ _ h
    obtain ⟨hv, hs⟩ := op_run_returns env c c2 op h1
    have hc2 : c2.curl.clean := by
      rcases hs with rfl | ⟨hf, _⟩
      · exact hc
      · rw [hf]; exact curl_easy_fresh_clean
    obtain ⟨hv1, hc1⟩ := ih c2 c1 h hc2
    exact ⟨hv1.trans hv, hc1⟩

/-- On a clean handle each verb starts exactly one transfer, under its own options. -/
theorem verb_traces (env : Env) (c : DOCKER) (hc : c.curl.clean) (url data : String)
    (st : Option Int) (t : Transfer) :
    (∃ rest, (docker_get_with_http_status env c url st t).trace =
        Event.transfer (get_options url) :: rest ∧ ∀ o, Event.transfer o ∉ rest) ∧
    (∃ rest, (docker_post_with_http_status env c url data st t).trace =
        Event.transfer (post_options url data) :: rest ∧ ∀ o, Event.transfer o ∉ rest) ∧
    (∃ rest, (docker_delete_with_http_status env c url st t).trace =
        Event.transfer (delete_options url) :: rest ∧ ∀ o, Event.transfer o ∉ rest) := by
  obtain ⟨h1, h2, h3⟩ := hc
  refine ⟨?_, ?_, ?_⟩
  · rw [docker_get_with_http_status_eq]
    obtain ⟨rest, hr, hn, _⟩ := perform_trace env _ url st t
    refine ⟨rest, ?_, hn⟩
    rw [hr]
    simp [curl_easy_setopt, get_options, h1, h2, h3]
  · rw [docker_post_with_http_status_eq]
    obtain ⟨rest, hr, hn, _⟩ := perform_trace env _ url st t
    refine ⟨rest, ?_, hn⟩
    rw [hr]
    simp [curl_easy_setopt, post_options, h2]
  · rw [docker_delete_with_http_status_eq]
    obtain ⟨rest, hr, hn, _⟩ := perform_trace env _ url st t
    refine ⟨rest, ?_, hn⟩
    rw [hr]
    simp [curl_easy_setopt, delete_options, h3]

theorem strlen_take (v : List Nat) : ∀ n, strlen v = some n → strlen (v.take (n + 1)) = some n := by
  induction v with
  | nil => intro n h; simp [strlen] at h
  | cons a t ih =>
    intro n h
    unfold strlen at h
    split at h
    · next ha =>
      simp only [Option.some.injEq] at h
      subst h
      simp [strlen, ha]
    · next ha =>
      simp only [Option.map_eq_some'] at h
      obtain ⟨m, hm, rfl⟩ := h
      simp [strlen, ha, ih m hm]

/-- C1 as stated fails for the empty sequence: with no call of write_function the buffer
is still data = NULL, size = 0, and there is no byte data[size]. -/
theorem no_call_leaves_null :
    ¬ ∀ (env : Env) (calls : List (List Nat × Nat × Nat)),
      (∀ n, env.heap_fails n = false) →
      (∀ c ∈ calls, c.2.1 * c.2.2 = c.1.length) →
      total (calls.map (·.1)) + 1 < SIZE_MOD →
      ∃ mem, (write_calls env calls { data := none, size := 0 }).result = .ok mem ∧
        mem.contents = (calls.map (·.1)).flatten ∧
        mem.size = total (calls.map (·.1)) ∧
        mem.byte mem.size = some 0 := by
  intro h
  obtain ⟨mem, hres, _, _, hbyte⟩ := h sample_env [] (fun _ => rfl) (by simp) (by decide)
  simp only [write_calls, Run.pure_eq, Except.ok.injEq] at hres
  subst hres
  simp [buffer.byte] at hbyte

/-- C1, amended: starting from the empty buffer (data NULL, size 0), a sequence of calls of
write_function whose arguments satisfy size * nmemb = chunk length, with no failing
allocation and no size_t overflow, returns; afterwards the first size bytes of data are
the concatenation of the chunks and size is the sum of their lengths; when the sequence
is not empty, data[size] is the byte 0. -/
theorem write_function_concatenates (env : Env) (calls : List (List Nat × Nat × Nat))
    (hheap : ∀ n, env.heap_fails n = false)
    (hlen : ∀ c ∈ calls, c.2.1 * c.2.2 = c.1.length)
    (hfit : total (calls.map (·.1)) + 1 < SIZE_MOD) :
    ∃ mem, (write_calls env calls { data := none, size := 0 }).result = .ok mem ∧
      mem.contents = (calls.map (·.1)).flatten ∧
      mem.size = total (calls.map (·.1)) ∧
      (calls ≠ [] → mem.byte mem.size = some 0) := by
  obtain ⟨mem, hres, _, hsize, hcont, hterm⟩ :=
    write_calls_spec env calls hheap hlen { data := none, size := 0 } (Or.inl ⟨rfl, rfl⟩)
      (by simpa using hfit)
  exact ⟨mem, hres, by simpa [buffer.contents] using hcont, by simpa using hsize,
    fun hne => hterm (Or.inl hne)⟩

theorem write_function_concatenates_witness :
    ∃ mem, (write_calls sample_env [([1, 2], 1, 2), ([3], 1, 1)]
        { data := none, size := 0 }).result = .ok mem ∧
      mem.contents = [1, 2, 3] ∧ mem.size = 3 ∧ mem.byte mem.size = some 0 := by
  obtain ⟨mem, h1, h2, h3, h4⟩ :=
    write_function_concatenates sample_env [([1, 2], 1, 2), ([3], 1, 1)]
      (fun _ => rfl) (by decide) (by decide)
  exact ⟨mem, h1, h2, h3, h4 (by simp)⟩

/-- C3: for every client state, whatever its buffer holds from an earlier request, and
every sequence of chunks delivered during docker_get (no failing allocation, body within
size_t), the call returns the code of the transfer and the buffer then holds exactly the
concatenation of the chunks of this call, with size their total length. -/
theorem docker_get_buffer_is_this_body (env : Env) (c : DOCKER) (url : String) (t : Transfer)
    (hheap : ∀ n, env.heap_fails n = false) (hfit : total t.chunks + 1 < SIZE_MOD) :
    ∃ c1, (docker_get env c url t).result = .ok (t.code, c1) ∧
      c1.buffer.contents = t.chunks.flatten ∧ c1.buffer.size = total t.chunks := by
  obtain ⟨mem, hres, hsize, hcont, _, _⟩ :=
    perform_spec env (init_curl c) url none t rfl rfl hheap hfit
  refine ⟨{ curl := curl_easy_fresh, version := (init_curl c).version, buffer := mem }, ?_,
    hcont, hsize⟩
  have : docker_get_with_http_status env c url none t = perform env (init_curl c) url none t :=
    rfl
  rw [(plain_verbs env c url "" t).1.2, this, hres]
  rfl

theorem docker_get_buffer_is_this_body_witness :
    ∃ c1, (docker_get sample_env (idle_client { data := some [7, 8, 9, 0], size := 3 })
        "http://v1.25/images/json"
        { chunks := [[1], [2, 3]], code := CURLE_OK, status := 200 }).result =
          .ok (CURLE_OK, c1) ∧
      c1.buffer.contents = [1, 2, 3] ∧ c1.buffer.size = 3 :=
  docker_get_buffer_is_this_body sample_env _ _
    { chunks := [[1], [2, 3]], code := CURLE_OK, status := 200 } (fun _ => rfl) (by decide)

/-- C2: when the version string has fewer than 4 characters, docker_init prints the
warning and returns NULL and that is the whole run: no allocation of the client, of the
buffer or of the version, and no curl_easy_init; a version of exactly 4 characters passes
the check: the run goes on to the allocation of the client, and returns a client when the
heap and curl_easy_init do not fail. -/
theorem docker_init_checks_version_length (env : Env) (v : List Nat) (n : Nat)
    (hn : strlen v = some n) :
    (n < 4 → docker_init env v = ⟨[Event.stderr "WARNING: version malformed."], .ok none⟩) ∧
    (n = 4 → (∃ rest, (docker_init env v).trace = Event.malloc sizeof_docker :: rest) ∧
      ((∀ k, env.heap_fails k = false) → env.curl_init_fails = false →
        ∃ c, (docker_init env v).result = .ok (some c))) := by
  refine ⟨fun h4 => docker_init_rejects env v n hn h4, fun h4 => ?_⟩
  subst h4
  exact ⟨docker_init_passes env v 4 hn (by decide),
    fun hheap hcurl => ⟨_, docker_init_ok env v 4 hn (le_refl 4) (by decide) hheap hcurl⟩⟩

theorem docker_init_checks_version_length_witness :
    strlen (literal "ab") = some 2 ∧
    docker_init sample_env (literal "ab") =
      ⟨[Event.stderr "WARNING: version malformed."], .ok none⟩ ∧
    strlen (literal "v1.2") = some 4 ∧
    (∃ rest, (docker_init sample_env (literal "v1.2")).trace =
      Event.malloc sizeof_docker :: rest) ∧
    ∃ c, (docker_init sample_env (literal "v1.2")).result = .ok (some c) :=
  ⟨by decide,
    (docker_init_checks_version_length sample_env (literal "ab") 2 (by decide)).1 (by decide),
    by decide,
    ((docker_init_checks_version_length sample_env (literal "v1.2") 4 (by decide)).2 rfl).1,
    ((docker_init_checks_version_length sample_env (literal "v1.2") 4 (by decide)).2 rfl).2
      (fun _ => rfl) rfl⟩

/-- C5: whatever the state of the client, docker_post_with_http_status starts exactly one
transfer, and the options in effect for it have the caller's data as body and a header
list that contains Content-Type: application/json; docker_post emits the same events as
the status variant called with NULL. -/
theorem docker_post_sends_body_and_content_type (env : Env) (c : DOCKER) (url data : String)
    (st : Option Int) (t : Transfer) :
    (∃ o rest, (docker_post_with_http_status env c url data st t).trace =
        Event.transfer o :: rest ∧ (∀ o1, Event.transfer o1 ∉ rest) ∧
      o.postfields = some data ∧ "Content-Type: application/json" ∈ o.httpheader) ∧
    (docker_post env c url data t).trace =
      (docker_post_with_http_status env c url data none t).trace := by
  refine ⟨?_, (plain_verbs env c url data t).2.1.1⟩
  rw [docker_post_with_http_status_eq]
  obtain ⟨rest, hr, hn, _⟩ := perform_trace env _ url st t
  exact ⟨_, rest, hr, hn, rfl, by simp [curl_easy_setopt]⟩

/-- C6: for each verb and every outcome of the transfer (no failing allocation, body within
size_t), the status variant returns exactly the code of the transfer; a non-NULL
out_http_status receives the final HTTP status, and with NULL the status is not queried;
the plain verb returns what its status variant returns when called with NULL. -/
theorem verbs_return_transfer_outcome (env : Env) (c : DOCKER) (url data : String)
    (st : Option Int) (t : Transfer)
    (hheap : ∀ n, env.heap_fails n = false) (hfit : total t.chunks + 1 < SIZE_MOD) :
    (∃ c1, (docker_get_with_http_status env c url st t).result =
        .ok (t.code, c1, st.map (fun _ => t.status))) ∧
    (∃ c1, (docker_post_with_http_status env c url data st t).result =
        .ok (t.code, c1, st.map (fun _ => t.status))) ∧
    (∃ c1, (docker_delete_with_http_status env c url st t).result =
        .ok (t.code, c1, st.map (fun _ => t.status))) ∧
    (st = none →
      Event.getinfo_response_code ∉ (docker_get_with_http_status env c url st t).trace ∧
      Event.getinfo_response_code ∉ (docker_post_with_http_status env c url data st t).trace ∧
      Event.getinfo_response_code ∉ (docker_delete_with_http_status env c url st t).trace) ∧
    (docker_get env c url t).result =
      (docker_get_with_http_status env c url none t).result.map (fun r => (r.1, r.2.1)) ∧
    (docker_post env c url data t).result =
      (docker_post_with_http_status env c url data none t).result.map
        (fun r => (r.1, r.2.1)) ∧
    (docker_delete env c url t).result =
      (docker_delete_with_http_status env c url none t).result.map
        (fun r => (r.1, r.2.1)) := by
  obtain ⟨⟨_, hg⟩, ⟨_, hp⟩, ⟨_, hd⟩⟩ := plain_verbs env c url data t
  rw [docker_get_with_http_status_eq, docker_post_with_http_status_eq,
    docker_delete_with_http_status_eq]
  refine ⟨?_, ?_, ?_, fun hst => ⟨?_, ?_, ?_⟩, hg, hp, hd⟩
  · exact perform_code env _ url st t (by rfl) (by rfl) hheap hfit
  · exact perform_code env _ url st t (by rfl) (by rfl) hheap hfit
  · exact perform_code env _ url st t (by rfl) (by rfl) hheap hfit
  · obtain ⟨rest, hr, _, hn⟩ := perform_trace env _ url st t
    rw [hr]
    simp only [List.mem_cons, not_or]
    exact ⟨by simp, hn hst⟩
  · obtain ⟨rest, hr, _, hn⟩ := perform_trace env _ url st t
    rw [hr]
    simp only [List.mem_cons, not_or]
    exact ⟨by simp, hn hst⟩
  · obtain ⟨rest, hr, _, hn⟩ := perform_trace env _ url st t
    rw [hr]
    simp only [List.mem_cons, not_or]
    exact ⟨by simp, hn hst⟩

theorem verbs_return_transfer_outcome_witness :
    ∃ c1, (docker_delete_with_http_status sample_env new_client
        "http://v1.25/containers/123" (some 0)
        { chunks := [], code := CURLE_OK, status := 204 }).result =
      .ok (CURLE_OK, c1, some 204) :=
  (verbs_return_transfer_outcome sample_env new_client
    "http://v1.25/containers/123" "" (some 0)
    { chunks := [], code := CURLE_OK, status := 204 } (fun _ => rfl) (by decide)).2.2.1

/-- C7: for a client returned by docker_init and every sequence of earlier calls on it
that returned (whatever their result codes), each verb starts exactly one transfer and the
options in effect for it are those of that verb alone: socket /var/run/docker.sock and the
client buffer as sink in all three; no header, method or body for GET; the header
Content-Type: application/json and the caller body for POST; that header, the method
DELETE and no body for DELETE. The plain verbs emit the events of their status variants. -/
theorem options_are_those_of_the_current_verb (env : Env) (v : List Nat) (c0 c1 : DOCKER)
    (prior : List Op) (url data : String) (st : Option Int) (t : Transfer)
    (hinit : (docker_init env v).result = .ok (some c0))
    (hprior : (run_ops env c0 prior).result = .ok c1) :
    (∃ rest, (docker_get_with_http_status env c1 url st t).trace =
        Event.transfer (get_options url) :: rest ∧ ∀ o, Event.transfer o ∉ rest) ∧
    (∃ rest, (docker_post_with_http_status env c1 url data st t).trace =
        Event.transfer (post_options url data) :: rest ∧ ∀ o, Event.transfer o ∉ rest) ∧
    (∃ rest, (docker_delete_with_http_status env c1 url st t).trace =
        Event.transfer (delete_options url) :: rest ∧ ∀ o, Event.transfer o ∉ rest) ∧
    (docker_get env c1 url t).trace = (docker_get_with_http_status env c1 url none t).trace ∧
    (docker_post env c1 url data t).trace =
      (docker_post_with_http_status env c1 url data none t).trace ∧
    (docker_delete env c1 url t).trace =
      (docker_delete_with_http_status env c1 url none t).trace := by
  have hc0 : c0.curl.clean := by
    cases hs : strlen v with
    | none => simp [docker_init, hs, Run.fail] at hinit
    | some n =>
      rw [docker_init_success env v n c0 hs hinit]
      exact ⟨rfl, rfl, rfl⟩
  have hc1 := (run_ops_returns env prior c0 c1 hprior hc0).2
  obtain ⟨hg, hp, hd⟩ := verb_traces env c1 hc1 url data st t
  obtain ⟨⟨tg, _⟩, ⟨tp, _⟩, ⟨td, _⟩⟩ := plain_verbs env c1 url data t
  exact ⟨hg, hp, hd, tg, tp, td⟩

theorem options_are_those_of_the_current_verb_witness :
    ∃ rest, (docker_get_with_http_status sample_env (idle_client { data := none, size := 0 })
        "http://v1.25/images/json" none { chunks := [[91, 93]], code := 0, status := 200 }).trace =
      Event.transfer (get_options "http://v1.25/images/json") :: rest ∧
      ∀ o, Event.transfer o ∉ rest :=
  (options_are_those_of_the_current_verb sample_env (literal "v1.25") new_client
    (idle_client { data := none, size := 0 })
    [Op.post "http://v1.25/containers/create" "body"
        { chunks := [[123, 125]], code := 0, status := 201 },
      Op.delete "http://v1.25/containers/123" { chunks := [], code := 7, status := 0 }]
    "http://v1.25/images/json" "" none { chunks := [[91, 93]], code := 0, status := 200 }
    (by decide) (by decide)).1

/-- C8: when docker_init succeeds on a version string of n characters (an object within
the address space), n is at least 4, the version of the client is the n characters and
the terminator, and the buffer is empty (data NULL, size 0); after any sequence of get,
post, delete (with or without status) and docker_buffer calls that returns, the version
of the client is unchanged. -/
theorem docker_init_version_is_kept (env : Env) (v : List Nat) (n : Nat) (c0 : DOCKER)
    (hn : strlen v = some n) (hfit : v.length < SIZE_MOD)
    (hinit : (docker_init env v).result = .ok (some c0)) :
    4 ≤ n ∧ c0.version = v.take (n + 1) ∧ strlen c0.version = some n ∧
      c0.buffer = { data := none, size := 0 } ∧
      ∀ ops c1, (run_ops env c0 ops).result = .ok c1 → c1.version = v.take (n + 1) := by
  have hlt := strlen_lt_length v n hn
  have hm : (n + 1) % SIZE_MOD = n + 1 := Nat.mod_eq_of_lt (by omega)
  have hc := docker_init_success env v n c0 hn hinit
  rw [hm] at hc
  have h4 : 4 ≤ n := by
    by_contra hlt4
    rw [docker_init_rejects env v n hn (by omega)] at hinit
    simp at hinit
  subst hc
  refine ⟨h4, rfl, strlen_take v n hn, rfl, fun ops c1 hops => ?_⟩
  exact (run_ops_returns env ops _ c1 hops ⟨rfl, rfl, rfl⟩).1

theorem docker_init_version_is_kept_witness :
    ∃ c0, (docker_init sample_env (literal "v1.25")).result = .ok (some c0) ∧
      c0.version = [118, 49, 46, 50, 53, 0] ∧
      ∀ ops c1, (run_ops sample_env c0 ops).result = .ok c1 →
        c1.version = [118, 49, 46, 50, 53, 0] :=
  ⟨new_client, by decide, by decide,
    (docker_init_version_is_kept sample_env (literal "v1.25") 5 new_client
      (by decide) (by decide) (by decide)).2.2.2.2⟩

/-- C9 at a failing input: for a request without query string, when docker_init fails
(curl_easy_init returns NULL), the handler answers with status 200 and points the body at
the diagnostic message of 42 characters, but the byte count and Content-Length are the 12
of the default text, so the body sent is only the 12 bytes "ERROR: Faile". -/
theorem handler_truncates_the_diagnostic :
    strlen (literal "ERROR: Failed to get get a docker client!\n") = some 42 ∧
    (ngx_http_crun_handler no_curl_env [] { chunks := [], code := 0, status := 0 }).result.map
        (fun r => (r.status, r.content_length_n, r.sz, r.pos, r.body)) =
      .ok (NGX_HTTP_OK, 12, 12, literal "ERROR: Failed to get get a docker client!\n",
        some ("ERROR: Faile".toList.map Char.toNat)) := by
  decide

/-- C10 at a failing input: for a query string of 100 bytes the byte count is 100 while
the body pointer ends on a message of 42 characters (docker_init failing) or of 59
characters (docker_init succeeding), so the range [pos, pos + sz) leaves the message. -/
theorem handler_reads_past_the_message :
    strlen (literal "ERROR: Failed to get get a docker client!\n") = some 42 ∧
    strlen (literal "The following are the Docker images present in the system.\n") =
      some 59 ∧
    (ngx_http_crun_handler no_curl_env (List.replicate 100 97)
        { chunks := [], code := 0, status := 0 }).result.map
        (fun r => (r.content_length_n, r.sz, r.pos, r.body)) =
      .ok (100, 100, literal "ERROR: Failed to get get a docker client!\n", none) ∧
    (ngx_http_crun_handler sample_env (List.replicate 100 97)
        { chunks := [[91, 93]], code := 0, status := 200 }).result.map
        (fun r => (r.content_length_n, r.sz, r.pos, r.body)) =
      .ok (100, 100,
        literal "The following are the Docker images present in the system.\n", none) := by
  decide

end NginxCrun
